import Mathlib

/-!
Verification development for the FET finance-tracker data-access layer
(app/utils/db.py and the alert logic of app/pages/1_Dashboard.py).

The SQLite-backed state is embedded as explicit lists of rows; each Python
function that touches the database becomes a Lean function from the state
to a result together with the new state.  Dynamically typed Python values
(arguments that may be None, a number, or a string) are embedded as the
inductive type PyVal; the coercions float(x) / int(x) become the partial
functions pyFloat / pyInt, with Option.none standing for a raised
exception.  Machine floats are modelled as rationals: every claim below is
about which rows are selected, summed or stored, never about rounding.
Storage itself is assumed healthy: the broad except-branches of db.py that
swallow sqlite errors are unreachable in the model, so operations fail only
where the Python code itself can raise before reaching SQL.
-/

/-- A dynamically typed Python value: None, a number (int or float, embedded
as a rational), or a string.  Used both for function arguments and for
dynamically typed SQLite cells. -/
inductive PyVal
  | vnone
  | vnum (q : Rat)
  | vstr (s : String)
deriving DecidableEq, Repr

/-- Python truthiness: None, 0 and the empty string are falsy. -/
def pyTruthy : PyVal → Bool
  | .vnone => false
  | .vnum q => if q = 0 then false else true
  | .vstr s => if s = "" then false else true

/-- Python `a or b`. -/
def pyOr (a b : PyVal) : PyVal := if pyTruthy a then a else b

/-- All characters are decimal digits. -/
def allDigits (cs : List Char) : Bool := cs.all (fun c => c.isDigit)

/-- Value of a list of decimal digits. -/
def digitsVal (cs : List Char) : Nat := cs.foldl (fun n c => n * 10 + (c.toNat - 48)) 0

/-- Parse a nonempty list of decimal digits. -/
def parseNatDigits (cs : List Char) : Option Nat :=
  if !cs.isEmpty && allDigits cs then some (digitsVal cs) else none

/-- Parse an unsigned decimal literal, with an optional fractional part
(models the core of Python float(); exponents, infinities and surrounding
whitespace are not needed by any claim and are not modelled). -/
def parseUnsigned (cs : List Char) : Option Rat :=
  let intPart := cs.takeWhile (· != '.')
  let rest := cs.dropWhile (· != '.')
  match rest with
  | [] => (parseNatDigits intPart).map (fun n => (n : Rat))
  | _ :: frac =>
    if allDigits intPart && allDigits frac && (!intPart.isEmpty || !frac.isEmpty) then
      some ((digitsVal intPart : Rat) + (digitsVal frac : Rat) / ((10 : Rat) ^ frac.length))
    else none

/-- Python float(s) on a string: optional sign then a decimal literal. -/
def strToFloat (s : String) : Option Rat :=
  match s.data with
  | '-' :: rest => (parseUnsigned rest).map (fun q => -q)
  | '+' :: rest => parseUnsigned rest
  | cs => parseUnsigned cs

/-- Python int(s) on a string: optional sign then decimal digits only. -/
def strToInt (s : String) : Option Int :=
  match s.data with
  | '-' :: rest => (parseNatDigits rest).map (fun n => -(n : Int))
  | '+' :: rest => (parseNatDigits rest).map (fun n => (n : Int))
  | cs => (parseNatDigits cs).map (fun n => (n : Int))

/-- Truncation toward zero, the behaviour of Python int() on a float. -/
def ratTrunc (q : Rat) : Int := if 0 ≤ q then ⌊q⌋ else -⌊-q⌋

/-- Python float(x) on a dynamic value; none models a raised exception. -/
def pyFloat : PyVal → Option Rat
  | .vnone => none
  | .vnum q => some q
  | .vstr s => strToFloat s

/-- Python int(x) on a dynamic value; none models a raised exception. -/
def pyInt : PyVal → Option Int
  | .vnone => none
  | .vnum q => some (ratTrunc q)
  | .vstr s => strToInt s

/-- A row of the users table. -/
structure UserRow where
  id : Int
  username : String
  email : String
  password_hash : String
  reset_token : Option String
  reset_expiry : PyVal
deriving DecidableEq, Repr

/-- A row of the family table. -/
structure FamilyRow where
  id : Int
  username : String
  member_name : String
  relation : String
  monthly_income : Rat
  age : Int
  notes : String
  is_head : Bool
  family_name : String
deriving DecidableEq, Repr

/-- A row of the expenses table.  The category column is nullable. -/
structure ExpenseRow where
  id : Int
  username : String
  date : String
  amount : Rat
  category : Option String
  assigned_member : String
  split_json : String
  note : String
deriving DecidableEq, Repr

/-- A row of the budgets table. -/
structure BudgetRow where
  id : Int
  username : String
  main_budget : Option Rat
  category_limits_json : String
deriving DecidableEq, Repr

/-- A row of the goals table. -/
structure GoalRow where
  id : Int
  username : String
  goal_name : String
  target_amount : Rat
  months_to_complete : Int
  created_on : String
deriving DecidableEq, Repr

/-- The whole SQLite database: the five tables in rowid (insertion) order,
plus the autoincrement counter of each table. -/
structure DB where
  users : List UserRow
  family : List FamilyRow
  expenses : List ExpenseRow
  budgets : List BudgetRow
  goals : List GoalRow
  nextUserId : Int
  nextFamilyId : Int
  nextExpenseId : Int
  nextBudgetId : Int
  nextGoalId : Int
deriving DecidableEq, Repr

/-- A freshly initialised database. -/
def emptyDB : DB := ⟨[], [], [], [], [], 1, 1, 1, 1, 1⟩

/-- hash_password from db.py, in the sha256 fallback branch (bcrypt is an
optional external dependency; the digest primitive itself is external
library code, so it is passed in as an explicit function argument). -/
def hash_password (digest : String → String) (plain : String) : String :=
  if plain = "" then "" else digest plain

/-- verify_password from db.py, sha256 fallback branch: false on an empty
stored hash, otherwise recompute and compare. -/
def verify_password (digest : String → String) (plain hashed : String) : Bool :=
  if hashed = "" then false else digest plain == hashed

/-- create_user from db.py: refuse empty username or password, refuse a
duplicate username (the UNIQUE constraint raises IntegrityError and the
function returns False with nothing committed), otherwise insert the row
with the hashed password and empty-string email fallback. -/
def create_user (digest : String → String) (username email password : String) (st : DB) : Bool × DB :=
  if username = "" ∨ password = "" then (false, st)
  else if st.users.any (fun r => r.username == username) then (false, st)
  else
    (true, { st with
      users := st.users ++ [⟨st.nextUserId, username, email, hash_password digest password, none, .vnone⟩],
      nextUserId := st.nextUserId + 1 })

/-- First user row matching the identifier as username or email
(SELECT ... WHERE username = ? OR email = ? with fetchone). -/
def findUser (ident : String) : List UserRow → Option UserRow
  | [] => none
  | r :: rs => if r.username = ident ∨ r.email = ident then some r else findUser ident rs

/-- UPDATE users SET reset_token, reset_expiry WHERE username = ?. -/
def setToken (u tok : String) (expiry : Int) (rows : List UserRow) : List UserRow :=
  rows.map (fun r =>
    if r.username = u then { r with reset_token := some tok, reset_expiry := .vnum (expiry : Rat) } else r)

/-- create_reset_token from db.py.  The clock and the randomly generated
token are explicit inputs (time.time() and secrets.token_urlsafe are
ambient effects in the source).  The stored expiry is int(time.time()) + ttl. -/
def create_reset_token (ident : String) (ttl : Int) (tok : String) (now : Rat) (st : DB) : Option String × DB :=
  match findUser ident st.users with
  | none => (none, st)
  | some r =>
    (some tok, { st with users := setToken r.username tok (ratTrunc now + ttl) st.users })

/-- First user row whose reset_token equals the given token
(SELECT ... WHERE reset_token = ? with fetchone; NULL never matches). -/
def findByToken (tok : String) : List UserRow → Option UserRow
  | [] => none
  | r :: rs => if r.reset_token = some tok then some r else findByToken tok rs

/-- The expiry coercion of verify_reset_token:
expiry = int(expiry) if expiry else 0, with exceptions also giving 0. -/
def parsedExpiry (v : PyVal) : Int :=
  if pyTruthy v then (pyInt v).getD 0 else 0

/-- verify_reset_token from db.py: None for a falsy token, None when no row
carries the token, None when the coerced expiry is nonzero and strictly in
the past, otherwise the username of the first matching row. -/
def verify_reset_token (tok : String) (now : Rat) (st : DB) : Option String :=
  if tok = "" then none
  else
    match findByToken tok st.users with
    | none => none
    | some r =>
      let e := parsedExpiry r.reset_expiry
      if e ≠ 0 ∧ now > (e : Rat) then none else some r.username

/-- add_family_member from db.py: both numeric fields are coerced inside
their own try/except, so the insert always happens.  The legacy income
keyword is the same coercion applied to monthly_income and is not
modelled separately. -/
def add_family_member (username member_name relation : String) (monthly_income age : PyVal)
    (notes : String) (head : Bool) (family_name : String) (st : DB) : Bool × DB :=
  let mi : Rat := (pyFloat (pyOr monthly_income (.vnum 0))).getD 0
  let a : Int := (pyInt (pyOr age (.vnum 0))).getD 0
  (true, { st with
    family := st.family ++ [⟨st.nextFamilyId, username, member_name, relation, mi, a, notes, head, family_name⟩],
    nextFamilyId := st.nextFamilyId + 1 })

/-- add_expense from db.py: the amount coercion float(amount) sits in its
own try/except with 0.0 as fallback; date defaults to the current day; the
split argument is stored as its serialised form (json.dumps of a dict or
list always succeeds, and a None split stores the empty string). -/
def add_expense (username : String) (amount : PyVal) (category assigned_member : String)
    (split : Option String) (note : String) (date : Option String) (today : String) (st : DB) : Bool × DB :=
  let d := date.getD today
  let amount_val : Rat := (pyFloat amount).getD 0
  let split_json := split.getD ""
  (true, { st with
    expenses := st.expenses ++ [⟨st.nextExpenseId, username, d, amount_val, some category, assigned_member, split_json, note⟩],
    nextExpenseId := st.nextExpenseId + 1 })

/-- Zero-pad a natural number to two digits. -/
def pad2 (n : Nat) : String := if n < 10 then "0" ++ toString n else toString n

/-- Zero-pad a natural number to four digits. -/
def pad4 (n : Nat) : String :=
  let s := toString n
  if s.length < 4 then String.mk (List.replicate (4 - s.length) '0') ++ s else s

/-- Gregorian leap year. -/
def isLeap (y : Nat) : Bool := (y % 4 = 0 && y % 100 != 0) || y % 400 = 0

/-- Days in a month. -/
def daysInMonth (y m : Nat) : Nat :=
  if m = 2 then (if isLeap y then 29 else 28)
  else if m = 4 ∨ m = 6 ∨ m = 9 ∨ m = 11 then 30
  else 31

/-- One strptime attempt of add_goal: three digit groups around a fixed
separator, year first or day first, with calendar validation. -/
def tryFmt (ymdFirst : Bool) (sep : Char) (s : String) : Option (Nat × Nat × Nat) :=
  match s.split (· = sep) with
  | [a, b, c] =>
    let ys := if ymdFirst then a else c
    let ms := b
    let ds := if ymdFirst then c else a
    match parseNatDigits ys.data, parseNatDigits ms.data, parseNatDigits ds.data with
    | some y, some m, some d =>
      if ys.length ≤ 4 && ms.length ≤ 2 && ds.length ≤ 2
          && decide (1 ≤ m) && decide (m ≤ 12) && decide (1 ≤ d) && decide (d ≤ daysInMonth y m) then
        some (y, m, d)
      else none
    | _, _, _ => none
  | _ => none

/-- Reformat a parsed date as YYYY-MM-DD. -/
def fmtYmd (t : Nat × Nat × Nat) : String := pad4 t.1 ++ "-" ++ pad2 t.2.1 ++ "-" ++ pad2 t.2.2

/-- The created_on normalisation of add_goal: try the four formats in
order, reformat on the first success, keep the original string when all
fail. -/
def normalizeGoalDate (s : String) : String :=
  match tryFmt true '-' s with
  | some t => fmtYmd t
  | none =>
    match tryFmt false '-' s with
    | some t => fmtYmd t
    | none =>
      match tryFmt false '/' s with
      | some t => fmtYmd t
      | none =>
        match tryFmt true '/' s with
        | some t => fmtYmd t
        | none => s

/-- add_goal from db.py: float(target_amount or 0.0) and int(months or 1)
run inside the outer try only, so an unparsable numeric argument aborts
the call with False and no insert. -/
def add_goal (username goal_name : String) (target_amount months : PyVal)
    (created_on : Option String) (today : String) (st : DB) : Bool × DB :=
  let con := match created_on with
    | none => today
    | some s => normalizeGoalDate s
  match pyFloat (pyOr target_amount (.vnum 0)), pyInt (pyOr months (.vnum 1)) with
  | some t, some k =>
    (true, { st with
      goals := st.goals ++ [⟨st.nextGoalId, username, goal_name, t, k, con⟩],
      nextGoalId := st.nextGoalId + 1 })
  | _, _ => (false, st)

/-- Whitespace accepted by the JSON grammar. -/
def jsonWs (c : Char) : Bool := c = ' ' || c = '\t' || c = '\n' || c = '\r'

/-- Skip leading JSON whitespace. -/
def skipWs : List Char → List Char
  | [] => []
  | c :: cs => if jsonWs c then skipWs cs else c :: cs

/-- Opening brace character. -/
def lbrace : Char := Char.ofNat 123

/-- Closing brace character. -/
def rbrace : Char := Char.ofNat 125

/-- Consume zero or more decimal digits. -/
def jsonDigitsMore : List Char → List Char
  | [] => []
  | c :: cs => if c.isDigit then jsonDigitsMore cs else c :: cs

/-- Consume one or more decimal digits. -/
def jsonDigits : List Char → Option (List Char)
  | [] => none
  | c :: cs => if c.isDigit then some (jsonDigitsMore cs) else none

/-- Consume the exponent part of a JSON number, if present. -/
def jsonExp : List Char → Option (List Char)
  | [] => some []
  | c :: rest =>
    if c = 'e' ∨ c = 'E' then
      match rest with
      | [] => none
      | s :: r2 => if s = '+' ∨ s = '-' then jsonDigits r2 else jsonDigits rest
    else some (c :: rest)

/-- Consume the fractional part of a JSON number, if present. -/
def jsonFrac : List Char → Option (List Char)
  | '.' :: rest =>
    match jsonDigits rest with
    | none => none
    | some r => jsonExp r
  | cs => jsonExp cs

/-- Consume a JSON number after the optional minus sign. -/
def jsonNumRest : List Char → Option (List Char)
  | [] => none
  | '0' :: rest => jsonFrac rest
  | c :: rest => if c.isDigit then jsonFrac (jsonDigitsMore rest) else none

/-- Consume the remainder of a JSON string after the opening quote
(escape sequences are accepted one character at a time). -/
def jsonStrRest : List Char → Option (List Char)
  | [] => none
  | '"' :: rest => some rest
  | '\\' :: _ :: rest => jsonStrRest rest
  | '\\' :: [] => none
  | _ :: rest => jsonStrRest rest

/-- Consume a fixed keyword tail. -/
def stripChars : List Char → List Char → Option (List Char)
  | [], cs => some cs
  | _ :: _, [] => none
  | p :: ps, c :: cs => if c = p then stripChars ps cs else none

mutual

/-- Consume one JSON value (fuel-bounded recursive-descent check modelling
whether json.loads succeeds). -/
def jsonVal : Nat → List Char → Option (List Char)
  | 0, _ => none
  | fuel + 1, cs =>
    match skipWs cs with
    | [] => none
    | c :: rest =>
      if c = '"' then jsonStrRest rest
      else if c = lbrace then jsonObjRest fuel (skipWs rest)
      else if c = '[' then jsonArrRest fuel (skipWs rest)
      else if c = '-' then jsonNumRest rest
      else if c = 't' then stripChars "rue".data rest
      else if c = 'f' then stripChars "alse".data rest
      else if c = 'n' then stripChars "ull".data rest
      else jsonNumRest (c :: rest)

/-- Consume the remainder of a JSON array after the opening bracket. -/
def jsonArrRest : Nat → List Char → Option (List Char)
  | 0, _ => none
  | fuel + 1, cs =>
    match cs with
    | ']' :: rest => some rest
    | _ =>
      match jsonVal fuel cs with
      | none => none
      | some r => jsonArrTail fuel (skipWs r)

/-- Consume array elements after the first one. -/
def jsonArrTail : Nat → List Char → Option (List Char)
  | 0, _ => none
  | fuel + 1, cs =>
    match cs with
    | ']' :: rest => some rest
    | ',' :: rest =>
      match jsonVal fuel (skipWs rest) with
      | none => none
      | some r => jsonArrTail fuel (skipWs r)
    | _ => none

/-- Consume one key-value pair of a JSON object. -/
def jsonPair : Nat → List Char → Option (List Char)
  | 0, _ => none
  | fuel + 1, cs =>
    match cs with
    | '"' :: rest =>
      match jsonStrRest rest with
      | none => none
      | some r =>
        match skipWs r with
        | ':' :: r2 => jsonVal fuel (skipWs r2)
        | _ => none
    | _ => none

/-- Consume the remainder of a JSON object after the opening brace. -/
def jsonObjRest : Nat → List Char → Option (List Char)
  | 0, _ => none
  | fuel + 1, cs =>
    if cs.head? = some rbrace then some cs.tail
    else
      match jsonPair fuel cs with
      | none => none
      | some r => jsonObjTail fuel (skipWs r)

/-- Consume object pairs after the first one. -/
def jsonObjTail : Nat → List Char → Option (List Char)
  | 0, _ => none
  | fuel + 1, cs =>
    if cs.head? = some rbrace then some cs.tail
    else
      match cs with
      | ',' :: rest =>
        match jsonPair fuel (skipWs rest) with
        | none => none
        | some r => jsonObjTail fuel (skipWs r)
      | _ => none

end

/-- Whether json.loads(s) succeeds: one JSON value followed only by
whitespace. -/
def jsonWF (s : String) : Bool :=
  match jsonVal (2 * s.length + 8) s.data with
  | some rest => (skipWs rest).isEmpty
  | none => false

/-- The category_limits argument of set_budget: None, a string, or a dict
of per-category numeric limits. -/
inductive CatLimitsIn
  | cnone
  | cstr (s : String)
  | cdict (d : List (String × Rat))
deriving DecidableEq, Repr

/-- Stand-in for the json.dumps rendering of a dict of numeric limits
(dumps of a dict never raises; the exact numeral formatting is immaterial
to every claim). -/
def dumpsDict (d : List (String × Rat)) : String :=
  String.mk (lbrace :: (String.intercalate ", " (d.map (fun p => "\"" ++ p.1 ++ "\": " ++ toString p.2))).data ++ [rbrace])

/-- The empty JSON object literal. -/
def emptyObj : String := String.mk [lbrace, rbrace]

/-- The main_budget coercion of set_budget:
float(main_budget) if main_budget not in (None, "") else None, with a
failed float() also giving None. -/
def mbVal (main_budget : PyVal) : Option Rat :=
  if main_budget = .vnone ∨ main_budget = .vstr "" then none
  else pyFloat main_budget

/-- The category_limits serialisation of set_budget: None becomes the empty
object, a string is kept only when json.loads accepts it, anything else is
dumped. -/
def catJson : CatLimitsIn → String
  | .cnone => emptyObj
  | .cstr s => if jsonWF s then s else emptyObj
  | .cdict d => dumpsDict d

/-- set_budget from db.py: delete every budget row of the user, then insert
the single new row. -/
def set_budget (username : String) (main_budget : PyVal) (category_limits : CatLimitsIn) (st : DB) : Bool × DB :=
  let row : BudgetRow := ⟨st.nextBudgetId, username, mbVal main_budget, catJson category_limits⟩
  (true, { st with
    budgets := st.budgets.filter (fun b => !(b.username == username)) ++ [row],
    nextBudgetId := st.nextBudgetId + 1 })

/-- The dict returned by load_budget. -/
structure LoadedBudget where
  main_budget : Option Rat
  category_limits_json : String
deriving DecidableEq, Repr

/-- ORDER BY id DESC LIMIT 1 over a list of budget rows. -/
def latestByIdDesc (rows : List BudgetRow) : Option BudgetRow :=
  rows.foldl
    (fun acc r =>
      match acc with
      | none => some r
      | some b => if b.id < r.id then some r else some b)
    none

/-- load_budget from db.py: the newest surviving row of the user, with the
empty-string JSON fallback; float() applied to an already numeric (or NULL)
main_budget is the identity. -/
def load_budget (username : String) (st : DB) : LoadedBudget :=
  match latestByIdDesc (st.budgets.filter (fun b => b.username == username)) with
  | none => ⟨none, emptyObj⟩
  | some row =>
    ⟨row.main_budget, if row.category_limits_json = "" then emptyObj else row.category_limits_json⟩

/-- SQLite substr(s, start, len) for positive arguments (1-indexed,
clipped at the end of the string). -/
def sqlSubstr (s : String) (start len : Nat) : String :=
  String.mk ((s.data.drop (start - 1)).take len)

/-- The month parameter rendering of category_breakdown:
the Python format {m:02d}. -/
def monthStr (m : Int) : String :=
  if 0 ≤ m ∧ m < 10 then "0" ++ toString m else toString m

/-- The WHERE clause of category_breakdown: username equality plus the two
textual substring comparisons, with the year rendered by str(year). -/
def expenseMatches (u : String) (y m : Int) (r : ExpenseRow) : Bool :=
  r.username == u && sqlSubstr r.date 1 4 == toString y && sqlSubstr r.date 6 2 == monthStr m

/-- Strict order on nullable category keys: NULL first, then binary string
order — the order in which SQLite emits GROUP BY groups via its temporary
b-tree. -/
def charListLtB : List Char → List Char → Bool
  | [], [] => false
  | [], _ :: _ => true
  | _ :: _, [] => false
  | a :: as, b :: bs => if a < b then true else if b < a then false else charListLtB as bs

/-- Strict order on nullable keys, NULL first. -/
def keyLtB : Option String → Option String → Bool
  | none, none => false
  | none, some _ => true
  | some _, none => false
  | some x, some y => charListLtB x.data y.data

/-- Insert a key into a sorted duplicate-free key list. -/
def insKey (k : Option String) : List (Option String) → List (Option String)
  | [] => [k]
  | x :: xs =>
    if k = x then x :: xs
    else if keyLtB k x then k :: x :: xs
    else x :: insKey k xs

/-- The distinct GROUP BY keys in emission order. -/
def sortKeys (l : List (Option String)) : List (Option String) := l.foldr insKey []

/-- The filtered rows of one category group. -/
def rowsWithCat (rows : List ExpenseRow) (k : Option String) : List ExpenseRow :=
  rows.filter (fun r => r.category == k)

/-- SUM(amount) over a group. -/
def sumAmounts (rows : List ExpenseRow) : Rat :=
  rows.foldr (fun r acc => r.amount + acc) 0

/-- The key normalisation of the result loop: cat = row category or Other. -/
def normKey : Option String → String
  | none => "Other"
  | some s => if s = "" then "Other" else s

/-- Python dict assignment out[k] = v on an association list: replace in
place, or append a new key at the end. -/
def dictPut (out : List (String × Rat)) (k : String) (v : Rat) : List (String × Rat) :=
  match out with
  | [] => [(k, v)]
  | (k0, v0) :: rest => if k0 = k then (k0, v) :: rest else (k0, v0) :: dictPut rest k v

/-- category_breakdown from db.py: filter the expenses of the user on the
textual year and month match, group by the nullable category, sum each
group, then build the result dict with the or-Other key normalisation. -/
def category_breakdown (u : String) (y m : Int) (st : DB) : List (String × Rat) :=
  let rows := st.expenses.filter (expenseMatches u y m)
  (sortKeys (rows.map (fun r => r.category))).foldl
    (fun out k => dictPut out (normKey k) (sumAmounts (rowsWithCat rows k))) []

/-- safe_float from 1_Dashboard.py: float(value) with a default for None
and for conversion failures. -/
def safe_float (v : PyVal) (default : Rat) : Rat :=
  (pyFloat v).getD default

/-- The two alert states of render_alerts. -/
inductive AlertKind
  | exceeded
  | nearing
deriving DecidableEq, Repr

/-- The per-category body of the render_alerts loop: skip nonpositive
limits, otherwise compare percent = spent / limit * 100 against the 100
and 80 thresholds.  The formatted message text is abstracted to the alert
kind. -/
def alertFor (limit_val spent_val : Rat) : Option AlertKind :=
  if limit_val ≤ 0 then none
  else if 100 ≤ spent_val / limit_val * 100 then some .exceeded
  else if 80 ≤ spent_val / limit_val * 100 then some .nearing
  else none

/-- render_alerts from 1_Dashboard.py: one pass over the configured
category limits, with the safe_float coercion of the limit and the
get-with-0-default of the spent amount. -/
def render_alerts (category_limits : List (String × PyVal)) (cat_spend : List (String × Rat)) :
    List (String × AlertKind) :=
  category_limits.filterMap (fun p =>
    (alertFor (safe_float p.2 0) ((List.lookup p.1 cat_spend).getD 0)).map (fun k => (p.1, k)))

/-- Python dict lookup d.get(c) on the association-list representation. -/
def dictGet (out : List (String × Rat)) (c : String) : Option Rat :=
  match out with
  | [] => none
  | (k, v) :: rest => if k = c then some v else dictGet rest c

/-- Modelled from the words of claim C1: the year rendered zero-padded to
four digits (the code instead renders it with str(year)). -/
def padYearClaim (y : Int) : String :=
  if 0 ≤ y then pad4 y.toNat else toString y

/-- Modelled from the words of claim C1: the row filter with the
zero-padded year. -/
def claimExpenseMatches (u : String) (y m : Int) (r : ExpenseRow) : Bool :=
  r.username == u && sqlSubstr r.date 1 4 == padYearClaim y && sqlSubstr r.date 6 2 == monthStr m

/-- A concrete injective digest used to instantiate the hash primitive in
witnesses. -/
def tagDigest (s : String) : String := String.mk ('#' :: s.data)

/-- State for the example of claim C1: the three expenses of the spec. -/
def exC1 : DB :=
  { emptyDB with
    expenses := [⟨1, "u", "2024-05-01", 100, some "Food", "", "", ""⟩,
                 ⟨2, "u", "2024-05-15", 50, some "Food", "", "", ""⟩,
                 ⟨3, "u", "2024-06-01", 10, some "Food", "", "", ""⟩],
    nextExpenseId := 4 }

/-- State for the counterexample of claim C1: one expense dated in year 5,
stored zero-padded as the claim prescribes. -/
def cexC1 : DB :=
  { emptyDB with
    expenses := [⟨1, "u", "0005-03-01", 100, some "Food", "", "", ""⟩],
    nextExpenseId := 2 }

/-- State for the counterexample of claim C10: one NULL-category and one
empty-category expense in the same month. -/
def cexC10 : DB :=
  { emptyDB with
    expenses := [⟨1, "u", "2024-05-01", 100, none, "", "", ""⟩,
                 ⟨2, "u", "2024-05-02", 50, some "", "", "", ""⟩],
    nextExpenseId := 3 }

/-- State for the witness of claim C4: one registered user. -/
def stC4w : DB :=
  { emptyDB with users := [⟨1, "alice", "alice@x", "h", none, .vnone⟩], nextUserId := 2 }

/-- State for the counterexample of claim C4: a stored token whose expiry
cell holds the integer 0. -/
def cexC4 : DB :=
  { emptyDB with users := [⟨1, "u", "", "h", some "tk", .vnum 0⟩], nextUserId := 2 }

/-- State for the witness of claim C9: a stored token whose expiry cell
holds unparsable text. -/
def stC9w : DB :=
  { emptyDB with users := [⟨1, "bob", "", "h", some "tok9", .vstr "soon"⟩], nextUserId := 2 }

/-- State for the witness of claim C6: one registered user. -/
def stC6w : DB :=
  { emptyDB with users := [⟨1, "carol", "c@x", "h", none, .vnone⟩], nextUserId := 2 }

/-- State for the witness of claim C10: a single NULL-category expense in
the month. -/
def stC10w : DB :=
  { emptyDB with
    expenses := [⟨1, "u", "2024-05-01", 100, none, "", "", ""⟩],
    nextExpenseId := 2 }

theorem dictGet_dictPut (out : List (String × Rat)) (k c : String) (v : Rat) :
    dictGet (dictPut out k v) c = if k = c then some v else dictGet out c := by
  induction out with
  | nil =>
    by_cases h : k = c <;> simp [dictPut, dictGet, h]
  | cons p rest ih =>
    obtain ⟨k0, v0⟩ := p
    by_cases h0 : k0 = k
    · subst h0
      by_cases h : k0 = c <;> simp [dictPut, dictGet, h]
    · by_cases h : k0 = c
      · subst h
        have hk : k ≠ k0 := fun hh => h0 hh.symm
        simp [dictPut, dictGet, h0, hk]
      · simp [dictPut, dictGet, h0, h, ih]

theorem dictGet_fold_put (f : Option String → Rat) (ks : List (Option String))
    (init : List (String × Rat)) (c : String) :
    dictGet (ks.foldl (fun out k => dictPut out (normKey k) (f k)) init) c
      = ((ks.filter (fun k => normKey k == c)).getLast?).elim (dictGet init c) (fun k => some (f k)) := by
  induction ks generalizing init with
  | nil => simp
  | cons h t ih =>
    simp only [List.foldl_cons, List.filter_cons]
    rw [ih]
    by_cases hc : normKey h = c
    · simp only [hc, beq_self_eq_true, if_true]
      cases hft : t.filter (fun k => normKey k == c) with
      | nil =>
        simp [hft, dictGet_dictPut, hc]
      | cons a l =>
        rw [List.getLast?_cons_cons]
        cases hgl : (a :: l).getLast? with
        | none =>
          rw [List.getLast?_eq_none] at hgl
          exact absurd hgl (by simp)
        | some x => simp [hgl]
    · have hcb : (normKey h == c) = false := by simp [hc]
      simp only [hcb, Bool.false_eq_true, if_false]
      cases hft : t.filter (fun k => normKey k == c) with
      | nil =>
        simp [hft, dictGet_dictPut, hc]
      | cons a l =>
        cases hgl : (a :: l).getLast? with
        | none =>
          rw [List.getLast?_eq_none] at hgl
          exact absurd hgl (by simp)
        | some x => simp [hgl]

theorem mem_insKey (a k : Option String) (l : List (Option String)) :
    a ∈ insKey k l ↔ a = k ∨ a ∈ l := by
  induction l with
  | nil => simp [insKey]
  | cons x xs ih =>
    simp only [insKey]
    by_cases h1 : k = x
    · subst h1
      simp only [if_true]
      constructor
      · intro h; exact Or.inr h
      · rintro (h | h)
        · simp [h]
        · exact h
    · rw [if_neg h1]
      by_cases h2 : keyLtB k x = true
      · simp [h2, or_assoc]
      · simp only [h2, Bool.false_eq_true, if_false, List.mem_cons, ih]
        tauto

theorem mem_sortKeys (a : Option String) (l : List (Option String)) :
    a ∈ sortKeys l ↔ a ∈ l := by
  induction l with
  | nil => simp [sortKeys]
  | cons x xs ih =>
    show a ∈ insKey x (sortKeys xs) ↔ _
    rw [mem_insKey, ih]
    simp

theorem mem_of_getLast?_eq {α : Type} {l : List α} {x : α} (h : l.getLast? = some x) : x ∈ l := by
  induction l with
  | nil => simp at h
  | cons a t ih =>
    cases t with
    | nil =>
      rw [List.getLast?_singleton] at h
      simp only [Option.some.injEq] at h
      simp [h]
    | cons b u =>
      rw [List.getLast?_cons_cons] at h
      exact List.mem_cons_of_mem _ (ih h)

theorem dictGet_category_breakdown (u : String) (y m : Int) (st : DB) (c : String) :
    dictGet (category_breakdown u y m st) c
      = (((sortKeys ((st.expenses.filter (expenseMatches u y m)).map (fun r => r.category))).filter
            (fun k => normKey k == c)).getLast?).elim none
          (fun k => some (sumAmounts (rowsWithCat (st.expenses.filter (expenseMatches u y m)) k))) := by
  simp only [category_breakdown]
  rw [dictGet_fold_put]
  rw [show dictGet [] c = none from rfl]

theorem normKey_eq_iff (c : String) (hc1 : c ≠ "Other") (hc2 : c ≠ "") (k : Option String) :
    normKey k = c ↔ k = some c := by
  cases k with
  | none =>
    simp only [normKey, Option.some.injEq]
    constructor
    · intro h; exact absurd h.symm hc1
    · intro h; cases h
  | some s =>
    by_cases hs : s = ""
    · subst hs
      simp only [normKey, if_true, Option.some.injEq]
      constructor
      · intro h; exact absurd h.symm hc1
      · intro h; exact absurd h.symm hc2
    · simp [normKey, hs]

theorem dictGet_breakdown_plain (u : String) (y m : Int) (st : DB) (c : String)
    (hc1 : c ≠ "Other") (hc2 : c ≠ "") :
    dictGet (category_breakdown u y m st) c
      = if rowsWithCat (st.expenses.filter (expenseMatches u y m)) (some c) = [] then none
        else some (sumAmounts (rowsWithCat (st.expenses.filter (expenseMatches u y m)) (some c))) := by
  rw [dictGet_category_breakdown]
  by_cases hempty : rowsWithCat (st.expenses.filter (expenseMatches u y m)) (some c) = []
  · have hnone : ((sortKeys ((st.expenses.filter (expenseMatches u y m)).map (fun r => r.category))).filter
        (fun k => normKey k == c)) = [] := by
      rw [List.filter_eq_nil]
      intro k hk hbeq
      have hkc : k = some c := (normKey_eq_iff c hc1 hc2 k).1 (by simpa using hbeq)
      subst hkc
      have := (mem_sortKeys _ _).1 hk
      obtain ⟨r, hr, hcat⟩ := List.mem_map.1 this
      have : r ∈ rowsWithCat (st.expenses.filter (expenseMatches u y m)) (some c) :=
        List.mem_filter.2 ⟨hr, by simp [hcat]⟩
      rw [hempty] at this
      simp at this
    simp [hnone, hempty]
  · obtain ⟨r, hrmem⟩ := List.exists_mem_of_ne_nil _ hempty
    have hr := List.mem_filter.1 hrmem
    have hcat : r.category = some c := by simpa using hr.2
    have hmem : (some c) ∈ sortKeys ((st.expenses.filter (expenseMatches u y m)).map (fun r => r.category)) :=
      (mem_sortKeys _ _).2 (List.mem_map.2 ⟨r, hr.1, hcat⟩)
    have hfmem : (some c) ∈ ((sortKeys ((st.expenses.filter (expenseMatches u y m)).map (fun r => r.category))).filter
        (fun k => normKey k == c)) :=
      List.mem_filter.2 ⟨hmem, by simp [(normKey_eq_iff c hc1 hc2 (some c)).2 rfl]⟩
    cases hgl : ((sortKeys ((st.expenses.filter (expenseMatches u y m)).map (fun r => r.category))).filter
        (fun k => normKey k == c)).getLast? with
    | none =>
      rw [List.getLast?_eq_none] at hgl
      rw [hgl] at hfmem
      simp at hfmem
    | some k0 =>
      have hk0f := mem_of_getLast?_eq hgl
      have hk0 : k0 = some c :=
        (normKey_eq_iff c hc1 hc2 k0).1 (by simpa using (List.mem_filter.1 hk0f).2)
      subst hk0
      simp [hempty]

theorem catJson_ne_empty (cl : CatLimitsIn) : catJson cl ≠ "" := by
  cases cl with
  | cnone =>
    intro h
    have := congrArg String.data h
    simp [catJson, emptyObj] at this
  | cstr s =>
    simp only [catJson]
    by_cases hwf : jsonWF s = true
    · rw [if_pos hwf]
      intro h
      subst h
      have : jsonWF "" = false := by decide
      rw [this] at hwf
      cases hwf
    · rw [if_neg hwf]
      intro h
      have := congrArg String.data h
      simp [emptyObj] at this
  | cdict d =>
    intro h
    have := congrArg String.data h
    simp [catJson, dumpsDict] at this

theorem findUser_mem {ident : String} {l : List UserRow} {r : UserRow}
    (h : findUser ident l = some r) : r ∈ l := by
  induction l with
  | nil => simp [findUser] at h
  | cons x xs ih =>
    simp only [findUser] at h
    by_cases hx : x.username = ident ∨ x.email = ident
    · rw [if_pos hx] at h
      simp only [Option.some.injEq] at h
      simp [h]
    · rw [if_neg hx] at h
      exact List.mem_cons_of_mem _ (ih h)

theorem findByToken_setToken_fresh (tok u : String) (e : Int) (rows : List UserRow)
    (hfresh : ∀ x ∈ rows, x.reset_token ≠ some tok)
    (hex : ∃ x ∈ rows, x.username = u) :
    ∃ w, findByToken tok (setToken u tok e rows) = some w
      ∧ w.username = u ∧ w.reset_expiry = .vnum (e : Rat) := by
  induction rows with
  | nil => simp at hex
  | cons y ys ih =>
    by_cases hy : y.username = u
    · refine ⟨{ y with reset_token := some tok, reset_expiry := .vnum (e : Rat) }, ?_, hy, rfl⟩
      simp [setToken, findByToken, hy]
    · have hex2 : ∃ x ∈ ys, x.username = u := by
        obtain ⟨x, hx, hxu⟩ := hex
        rcases List.mem_cons.1 hx with hxy | hxys
        · subst hxy; exact absurd hxu hy
        · exact ⟨x, hxys, hxu⟩
      have hfresh2 : ∀ x ∈ ys, x.reset_token ≠ some tok :=
        fun x hx => hfresh x (List.mem_cons_of_mem _ hx)
      obtain ⟨w, hw, hwu, hwe⟩ := ih hfresh2 hex2
      refine ⟨w, ?_, hwu, hwe⟩
      have hyt : y.reset_token ≠ some tok := hfresh y (List.mem_cons_self _ _)
      simp only [setToken, List.map_cons, findByToken, if_neg hy]
      rw [if_neg hyt]
      exact hw

theorem ratTrunc_intCast (n : Int) : ratTrunc ((n : Int) : Rat) = n := by
  unfold ratTrunc
  by_cases h : (0 : Rat) ≤ (n : Rat)
  · rw [if_pos h, Int.floor_intCast]
  · rw [if_neg h]
    rw [show (-(n : Rat)) = (((-n : Int) : Int) : Rat) by push_cast; ring]
    rw [Int.floor_intCast]
    ring

theorem le_ratTrunc_add_one (q : Rat) : q ≤ (ratTrunc q : Rat) + 1 := by
  unfold ratTrunc
  by_cases h : (0 : Rat) ≤ q
  · rw [if_pos h]
    have := Int.lt_floor_add_one q
    linarith
  · rw [if_neg h]
    have h2 := Int.floor_le (-q)
    have h3 : ((-(⌊-q⌋) : Int) : Rat) = -((⌊-q⌋ : Int) : Rat) := by push_cast; ring
    rw [h3]
    linarith

theorem tagDigest_injective : Function.Injective tagDigest := by
  intro a b h
  have : ('#' :: a.data) = ('#' :: b.data) := congrArg String.data h
  simp only [List.cons.injEq, true_and] at this
  exact String.ext this

theorem tagDigest_ne_empty (s : String) : tagDigest s ≠ "" := by
  intro h
  have := congrArg String.data h
  simp [tagDigest] at this

/-- Claim C1, amended: category_breakdown maps each ordinary category (one
that is neither empty nor the literal Other) to the sum of the amounts of
exactly the rows of the user whose stored date has first four characters
equal to str(year) — the decimal rendering of the year, which coincides
with the zero-padded form only for four-digit years — and characters 6-7
equal to the zero-padded month; on the spec example the breakdown of
(2024, 5) is exactly the dict mapping Food to 150. -/
theorem c1_category_breakdown_amended :
    (∀ (u : String) (y m : Int) (st : DB) (c : String), c ≠ "Other" → c ≠ "" →
      dictGet (category_breakdown u y m st) c
        = if rowsWithCat (st.expenses.filter (expenseMatches u y m)) (some c) = [] then none
          else some (sumAmounts (rowsWithCat (st.expenses.filter (expenseMatches u y m)) (some c))))
    ∧ category_breakdown "u" 2024 5 exC1 = [("Food", 150)] := by
  constructor
  · intro u y m st c hc1 hc2
    exact dictGet_breakdown_plain u y m st c hc1 hc2
  · show [("Food", (100 : Rat) + (50 + 0))] = [("Food", 150)]
    norm_num

/-- Witness for claim C1: the amended characterisation instantiated at the
spec example state and the category Food. -/
theorem c1_category_breakdown_amended_witness :
    dictGet (category_breakdown "u" 2024 5 exC1) "Food"
      = if rowsWithCat (exC1.expenses.filter (expenseMatches "u" 2024 5)) (some "Food") = [] then none
        else some (sumAmounts (rowsWithCat (exC1.expenses.filter (expenseMatches "u" 2024 5)) (some "Food"))) :=
  c1_category_breakdown_amended.1 "u" 2024 5 exC1 "Food" (by decide) (by decide)

/-- Counterexample to claim C1 as stated: for year 5 the code compares the
first four date characters against str(5) = "5", not against the
zero-padded "0005", so a row dated 0005-03-01 that satisfies the filter of
the claim is dropped and the breakdown is empty instead of mapping Food to
its sum. -/
theorem c1_zero_padded_year_cex :
    category_breakdown "u" 5 3 cexC1 = []
    ∧ claimExpenseMatches "u" 5 3 ⟨1, "u", "0005-03-01", 100, some "Food", "", "", ""⟩ = true
    ∧ cexC1.expenses = [⟨1, "u", "0005-03-01", 100, some "Food", "", "", ""⟩] :=
  ⟨rfl, by decide, rfl⟩

/-- Claim C2: the per-category alert computation of render_alerts skips a
category whose coerced limit is nonpositive, reports exceeded at percent at
least 100, nearing at percent in [80, 100), nothing below 80; and on the
spec examples limit 100 with spent 79, 80, 100 gives none, nearing,
exceeded. -/
theorem c2_alert_thresholds (limit spent : Rat) :
    (limit ≤ 0 → alertFor limit spent = none)
    ∧ (0 < limit → 100 ≤ spent / limit * 100 → alertFor limit spent = some .exceeded)
    ∧ (0 < limit → 80 ≤ spent / limit * 100 → spent / limit * 100 < 100 →
        alertFor limit spent = some .nearing)
    ∧ (0 < limit → spent / limit * 100 < 80 → alertFor limit spent = none)
    ∧ alertFor 100 79 = none ∧ alertFor 100 80 = some .nearing ∧ alertFor 100 100 = some .exceeded := by
  refine ⟨?_, ?_, ?_, ?_, by norm_num [alertFor], by norm_num [alertFor], by norm_num [alertFor]⟩
  · intro h
    simp [alertFor, h]
  · intro hpos h100
    unfold alertFor
    rw [if_neg (not_le.mpr hpos), if_pos h100]
  · intro hpos h80 h100
    unfold alertFor
    rw [if_neg (not_le.mpr hpos), if_neg (not_le.mpr h100), if_pos h80]
  · intro hpos h80
    unfold alertFor
    rw [if_neg (not_le.mpr hpos), if_neg (not_le.mpr (lt_of_lt_of_le h80 (by norm_num))),
      if_neg (not_le.mpr h80)]

/-- Witness for claim C2: the three threshold instances of the spec,
obtained from the quantified statement at limit 100. -/
theorem c2_alert_thresholds_witness :
    alertFor 100 79 = none ∧ alertFor 100 80 = some .nearing ∧ alertFor 100 100 = some .exceeded :=
  ⟨(c2_alert_thresholds 100 79).2.2.2.1 (by norm_num) (by norm_num),
   (c2_alert_thresholds 100 80).2.2.1 (by norm_num) (by norm_num) (by norm_num),
   (c2_alert_thresholds 100 100).2.1 (by norm_num) (by norm_num)⟩

/-- Claim C3: set_budget is a full replace — both calls succeed, after two
successive calls load_budget reads back exactly the coerced values of the
second call, and the budgets table holds exactly one row for the user. -/
theorem c3_set_budget_replace (u : String) (v1 v2 : PyVal) (c1 c2 : CatLimitsIn) (st : DB) :
    (set_budget u v1 c1 st).1 = true
    ∧ (set_budget u v2 c2 (set_budget u v1 c1 st).2).1 = true
    ∧ load_budget u (set_budget u v2 c2 (set_budget u v1 c1 st).2).2 = ⟨mbVal v2, catJson c2⟩
    ∧ ((set_budget u v2 c2 (set_budget u v1 c1 st).2).2.budgets.filter
        (fun b => b.username == u)).length = 1 := by
  have key : ∀ (l : List BudgetRow) (row : BudgetRow), row.username = u →
      (l.filter (fun b => !(b.username == u)) ++ [row]).filter (fun b => b.username == u) = [row] := by
    intro l row hrow
    rw [List.filter_append]
    have h1 : (l.filter (fun b => !(b.username == u))).filter (fun b => b.username == u) = [] := by
      rw [List.filter_eq_nil]
      intro b hb hq
      have hp := (List.mem_filter.1 hb).2
      rw [hq] at hp
      simp at hp
    rw [h1]
    simp [hrow]
  refine ⟨rfl, rfl, ?_, ?_⟩
  · simp only [set_budget, load_budget]
    rw [key _ _ rfl]
    simp [latestByIdDesc, catJson_ne_empty c2]
  · simp only [set_budget]
    rw [key _ _ rfl]
    rfl

theorem parsedExpiry_vnum_intCast (e : Int) : parsedExpiry (.vnum ((e : Int) : Rat)) = e := by
  by_cases hq : ((e : Int) : Rat) = 0
  · have he : e = 0 := by exact_mod_cast hq
    simp [parsedExpiry, pyTruthy, hq, he]
  · simp [parsedExpiry, pyTruthy, hq, pyInt, ratTrunc_intCast]

/-- Claim C4, amended: for an existing user found by username or email,
creating a reset token with a fresh random token and a positive ttl and
verifying it at the same instant yields that username; and
verify_reset_token returns null exactly when the token is falsy or matches
no row, or the coerced stored expiry is nonzero and the current time is
strictly greater — a NULL, zero or unparsable stored expiry is coerced to
0 and never expires, which is weaker than the null-exactly-past-expiry
reading of the claim. -/
theorem c4_reset_token_amended :
    (∀ (ident tok : String) (ttl : Int) (now : Rat) (st : DB) (r : UserRow),
      findUser ident st.users = some r → tok ≠ "" → 1 ≤ ttl →
      (∀ x ∈ st.users, x.reset_token ≠ some tok) →
      (create_reset_token ident ttl tok now st).1 = some tok
      ∧ verify_reset_token tok now (create_reset_token ident ttl tok now st).2 = some r.username)
    ∧ (∀ (tok : String) (now : Rat) (st : DB),
        verify_reset_token tok now st = none ↔
          (tok = "" ∨ findByToken tok st.users = none
            ∨ ∃ r, findByToken tok st.users = some r ∧ parsedExpiry r.reset_expiry ≠ 0
                ∧ now > ((parsedExpiry r.reset_expiry : Int) : Rat))) := by
  constructor
  · intro ident tok ttl now st r hfind htok httl hfresh
    refine ⟨by simp [create_reset_token, hfind], ?_⟩
    simp only [create_reset_token, hfind]
    obtain ⟨w, hw, hwu, hwe⟩ :=
      findByToken_setToken_fresh tok r.username (ratTrunc now + ttl) st.users hfresh
        ⟨r, findUser_mem hfind, rfl⟩
    unfold verify_reset_token
    rw [if_neg htok]
    rw [show ({ st with users := setToken r.username tok (ratTrunc now + ttl) st.users } : DB).users
          = setToken r.username tok (ratTrunc now + ttl) st.users from rfl]
    rw [hw]
    change (if parsedExpiry w.reset_expiry ≠ 0 ∧ now > ((parsedExpiry w.reset_expiry : Int) : Rat)
        then none else some w.username) = some r.username
    rw [hwe, parsedExpiry_vnum_intCast]
    have hnle : now ≤ ((ratTrunc now + ttl : Int) : Rat) := by
      have h1 := le_ratTrunc_add_one now
      have h2 : ((ratTrunc now + ttl : Int) : Rat) = (ratTrunc now : Rat) + (ttl : Rat) := by
        push_cast
        ring
      have h3 : (1 : Rat) ≤ (ttl : Rat) := by exact_mod_cast httl
      rw [h2]
      linarith
    rw [if_neg ?hguard, hwu]
    case hguard =>
      rintro ⟨-, hgt⟩
      exact absurd hgt (not_lt.2 hnle)
  · intro tok now st
    unfold verify_reset_token
    by_cases ht : tok = ""
    · simp [ht]
    · rw [if_neg ht]
      cases hf : findByToken tok st.users with
      | none => simp [ht, hf]
      | some r =>
        change (if parsedExpiry r.reset_expiry ≠ 0 ∧ now > ((parsedExpiry r.reset_expiry : Int) : Rat)
            then none else some r.username) = none ↔ _
        by_cases hc : parsedExpiry r.reset_expiry ≠ 0 ∧ now > ((parsedExpiry r.reset_expiry : Int) : Rat)
        · rw [if_pos hc]
          simp [ht, hc]
        · rw [if_neg hc]
          simp [ht, hc]

/-- Witness for claim C4: one user, a fresh token, the default ttl and a
concrete clock; creation returns the token and immediate verification
returns the username. -/
theorem c4_reset_token_amended_witness :
    (create_reset_token "alice" 3600 "T" 5 stC4w).1 = some "T"
    ∧ verify_reset_token "T" 5 (create_reset_token "alice" 3600 "T" 5 stC4w).2
        = some (⟨1, "alice", "alice@x", "h", none, .vnone⟩ : UserRow).username :=
  c4_reset_token_amended.1 "alice" "T" 3600 5 stC4w ⟨1, "alice", "alice@x", "h", none, .vnone⟩
    (by decide) (by decide) (by decide) (by decide)

/-- Counterexample to claim C4 as stated: a row whose stored expiry is the
integer 0 and a current time strictly past it — the claim demands null,
the code returns the username because 0 is falsy. -/
theorem c4_zero_expiry_cex :
    verify_reset_token "tk" 100 cexC4 = some "u" ∧ ((100 : Rat) > 0) :=
  ⟨by decide, by norm_num⟩

/-- Claim C5: with the external digest primitive idealised as injective
and never empty (both true of sha256 hex digests, and injectivity is the
usable idealisation of collision resistance), verification succeeds on the
hashed password, fails on the password extended by "x", and fails on an
empty or missing stored hash. -/
theorem c5_password_roundtrip (digest : String → String)
    (hinj : Function.Injective digest) (hne : ∀ s, digest s ≠ "")
    (p q : String) (hp : p ≠ "") :
    verify_password digest p (hash_password digest p) = true
    ∧ verify_password digest (p ++ "x") (hash_password digest p) = false
    ∧ verify_password digest q "" = false := by
  have hh : hash_password digest p = digest p := by simp [hash_password, hp]
  refine ⟨?_, ?_, by simp [verify_password]⟩
  · rw [hh]
    simp [verify_password, hne p]
  · rw [hh]
    simp only [verify_password, if_neg (hne p)]
    rw [beq_eq_false_iff_ne]
    intro heq
    have hpe := hinj heq
    have hlen := congrArg String.length hpe
    rw [String.length_append] at hlen
    have hx : ("x" : String).length = 1 := rfl
    rw [hx] at hlen
    omega

/-- Witness for claim C5: the concrete injective digest tagDigest and the
password "a". -/
theorem c5_password_roundtrip_witness :
    verify_password tagDigest "a" (hash_password tagDigest "a") = true
    ∧ verify_password tagDigest ("a" ++ "x") (hash_password tagDigest "a") = false
    ∧ verify_password tagDigest "b" "" = false :=
  c5_password_roundtrip tagDigest tagDigest_injective tagDigest_ne_empty "a" "b" (by decide)

/-- Claim C6: when a row with the username already exists, create_user
returns false and leaves the whole state, in particular the existing row,
unchanged. -/
theorem c6_duplicate_username (digest : String → String) (u e p : String) (st : DB) (r : UserRow)
    (hr : r ∈ st.users) (hu : r.username = u) :
    create_user digest u e p st = (false, st) := by
  unfold create_user
  by_cases h0 : u = "" ∨ p = ""
  · rw [if_pos h0]
  · rw [if_neg h0, if_pos (List.any_eq_true.2 ⟨r, hr, by simp [hu]⟩)]

/-- Witness for claim C6: registering carol a second time fails and leaves
the state untouched. -/
theorem c6_duplicate_username_witness :
    create_user id "carol" "x" "pw" stC6w = (false, stC6w) :=
  c6_duplicate_username id "carol" "x" "pw" stC6w ⟨1, "carol", "c@x", "h", none, .vnone⟩
    (by decide) rfl

/-- Claim C7, amended: a successful add_goal stores target_amount at least
0 and months_to_complete at least 1 provided the coerced inputs
float(target or 0.0) and int(months or 1) are themselves in range; a
negative numeric target or a months value truncating below 1 is stored
as-is, so the invariant of the claim does not hold unconditionally. -/
theorem c7_goal_invariants_amended (u g : String) (target months : PyVal)
    (con : Option String) (today : String) (st : DB)
    (ht : ∀ x : Rat, pyFloat (pyOr target (.vnum 0)) = some x → 0 ≤ x)
    (hm : ∀ k : Int, pyInt (pyOr months (.vnum 1)) = some k → 1 ≤ k) :
    (add_goal u g target months con today st).1 = true →
    ∃ row : GoalRow,
      (add_goal u g target months con today st).2.goals = st.goals ++ [row]
      ∧ 0 ≤ row.target_amount ∧ 1 ≤ row.months_to_complete := by
  simp only [add_goal]
  cases hf : pyFloat (pyOr target (.vnum 0)) with
  | none => simp
  | some t =>
    cases hi : pyInt (pyOr months (.vnum 1)) with
    | none => simp
    | some k =>
      intro _
      exact ⟨_, rfl, ht t hf, hm k hi⟩

/-- Witness for claim C7: a missing target and the months string "3" — the
stored row satisfies both invariants. -/
theorem c7_goal_invariants_amended_witness :
    ∃ row : GoalRow,
      (add_goal "u" "g" .vnone (.vstr "3") none "2024-02-03" emptyDB).2.goals
        = emptyDB.goals ++ [row]
      ∧ 0 ≤ row.target_amount ∧ 1 ≤ row.months_to_complete :=
  c7_goal_invariants_amended "u" "g" .vnone (.vstr "3") none "2024-02-03" emptyDB
    (by
      intro x hx
      rw [show pyFloat (pyOr PyVal.vnone (PyVal.vnum 0)) = some 0 from rfl] at hx
      injection hx with h
      exact le_of_eq h)
    (by
      intro k hk
      rw [show pyInt (pyOr (PyVal.vstr "3") (PyVal.vnum 1)) = some 3 from by decide] at hk
      injection hk with h
      omega)
    (by decide)

/-- Counterexample to claim C7 as stated: add_goal accepts the numeric
target −5 with months "2", succeeds, and stores the negative target. -/
theorem c7_negative_goal_cex :
    (add_goal "u" "g" (.vnum (-5)) (.vstr "2") none "2024-01-01" emptyDB).1 = true
    ∧ (add_goal "u" "g" (.vnum (-5)) (.vstr "2") none "2024-01-01" emptyDB).2.goals
        = [⟨1, "u", "g", -5, 2, "2024-01-01"⟩]
    ∧ ¬ (0 : Rat) ≤ -5 :=
  ⟨by decide, by decide, by norm_num⟩

/-- Claim C8, amended: add_expense and add_family_member never fail and
substitute 0.0 (or 0 for the integer age) for a missing or unparsable
numeric field; add_goal substitutes only for falsy values — 0.0 for the
target and 1, not 0, for months — and returns false with no insert when a
truthy numeric field is unparsable. -/
theorem c8_numeric_coercion_amended :
    (∀ (u cat asg note today : String) (amt : PyVal) (split : Option String)
        (date : Option String) (st : DB),
      (add_expense u amt cat asg split note date today st).1 = true
      ∧ (add_expense u amt cat asg split note date today st).2.expenses
          = st.expenses ++ [⟨st.nextExpenseId, u, date.getD today, (pyFloat amt).getD 0,
              some cat, asg, split.getD "", note⟩])
    ∧ (∀ (u mn rel notes fam : String) (mi age : PyVal) (head : Bool) (st : DB),
      (add_family_member u mn rel mi age notes head fam st).1 = true
      ∧ (add_family_member u mn rel mi age notes head fam st).2.family
          = st.family ++ [⟨st.nextFamilyId, u, mn, rel, (pyFloat (pyOr mi (.vnum 0))).getD 0,
              (pyInt (pyOr age (.vnum 0))).getD 0, notes, head, fam⟩])
    ∧ (∀ (u g today : String) (target months : PyVal) (con : Option String) (st : DB),
        (pyTruthy target = false → pyTruthy months = false →
          (add_goal u g target months con today st).1 = true
          ∧ (add_goal u g target months con today st).2.goals
              = st.goals ++ [⟨st.nextGoalId, u, g, 0, 1,
                  (match con with | none => today | some s => normalizeGoalDate s)⟩])
        ∧ (pyFloat (pyOr target (.vnum 0)) = none →
            add_goal u g target months con today st = (false, st))
        ∧ (pyInt (pyOr months (.vnum 1)) = none →
            add_goal u g target months con today st = (false, st))) := by
  refine ⟨fun u cat asg note today amt split date st => ⟨rfl, rfl⟩,
    fun u mn rel notes fam mi age head st => ⟨rfl, rfl⟩, ?_⟩
  intro u g today target months con st
  refine ⟨?_, ?_, ?_⟩
  · intro hft hfm
    have h1 : pyOr target (.vnum 0) = .vnum 0 := by simp [pyOr, hft]
    have h2 : pyOr months (.vnum 1) = .vnum 1 := by simp [pyOr, hfm]
    have h3 : ratTrunc 1 = 1 := by
      unfold ratTrunc
      rw [if_pos (by norm_num)]
      exact Int.floor_one
    simp only [add_goal, h1, h2, pyFloat, pyInt, h3]
    constructor
    · trivial
    · trivial
  · intro hf
    simp [add_goal, hf]
  · intro hm
    cases hf : pyFloat (pyOr target (.vnum 0)) with
    | none => simp [add_goal, hf]
    | some t => simp [add_goal, hf, hm]

/-- Witness for claim C8: an unparsable expense amount is stored as 0.0
while the call succeeds, and the same unparsable string as a goal target
makes add_goal fail with no insert. -/
theorem c8_numeric_coercion_amended_witness :
    ((add_expense "u" (.vstr "oops") "Food" "" none "" none "2024-01-02" emptyDB).1 = true
      ∧ (add_expense "u" (.vstr "oops") "Food" "" none "" none "2024-01-02" emptyDB).2.expenses
          = emptyDB.expenses ++ [⟨emptyDB.nextExpenseId, "u", (none : Option String).getD "2024-01-02",
              (pyFloat (.vstr "oops")).getD 0, some "Food", "", (none : Option String).getD "", ""⟩])
    ∧ add_goal "u" "g" (.vstr "oops") (.vstr "2") none "2024-01-02" emptyDB = (false, emptyDB) :=
  ⟨c8_numeric_coercion_amended.1 "u" "Food" "" "" "2024-01-02" (.vstr "oops") none none emptyDB,
   (c8_numeric_coercion_amended.2.2 "u" "g" "2024-01-02" (.vstr "oops") (.vstr "2") none emptyDB).2.1
     (by decide)⟩

/-- Counterexample to claim C8 as stated: an unparsable goal target does
not get replaced by 0.0 — the call fails and inserts nothing. -/
theorem c8_goal_unparsable_cex :
    add_goal "u" "g" (.vstr "abc") (.vstr "2") none "2024-01-01" emptyDB = (false, emptyDB) := by
  decide

/-- Claim C9: a stored reset token whose expiry cell is NULL, the integer
0, or an unparsable string never expires — verification returns the
username at every instant. -/
theorem c9_nonexpiring_token (tok : String) (now : Rat) (st : DB) (r : UserRow)
    (htok : tok ≠ "")
    (hfind : findByToken tok st.users = some r)
    (hexp : r.reset_expiry = .vnone ∨ r.reset_expiry = .vnum 0
      ∨ ∃ s, r.reset_expiry = .vstr s ∧ strToInt s = none) :
    verify_reset_token tok now st = some r.username := by
  unfold verify_reset_token
  rw [if_neg htok, hfind]
  change (if parsedExpiry r.reset_expiry ≠ 0 ∧ now > ((parsedExpiry r.reset_expiry : Int) : Rat)
      then none else some r.username) = some r.username
  have he : parsedExpiry r.reset_expiry = 0 := by
    rcases hexp with h | h | ⟨s, h, hs⟩
    · simp [parsedExpiry, h, pyTruthy]
    · simp [parsedExpiry, h, pyTruthy]
    · by_cases hs0 : s = ""
      · simp [parsedExpiry, h, pyTruthy, hs0]
      · simp [parsedExpiry, h, pyTruthy, hs0, pyInt, hs]
  simp [he]

/-- Witness for claim C9: a token whose stored expiry is the unparsable
text "soon" verifies successfully at a late clock value. -/
theorem c9_nonexpiring_token_witness :
    verify_reset_token "tok9" 999999 stC9w
      = some (⟨1, "bob", "", "h", some "tok9", .vstr "soon"⟩ : UserRow).username :=
  c9_nonexpiring_token "tok9" 999999 stC9w ⟨1, "bob", "", "h", some "tok9", .vstr "soon"⟩
    (by decide) (by decide) (Or.inr (Or.inr ⟨"soon", rfl, by decide⟩))

/-- Claim C10, amended: the empty string is never a key of the breakdown,
and a group of NULL-or-empty-category rows is reported under the key
Other with its SUM — unconditionally so only when a single group collides
onto Other; when several of the colliding groups (NULL, empty string,
literal Other) are present in the same month, the later group overwrites
the dict entry, so only one survives, contrary to the unconditional
reading of the claim. -/
theorem c10_other_key_amended (u : String) (y m : Int) (st : DB) :
    dictGet (category_breakdown u y m st) "" = none
    ∧ (∀ k0 : Option String, normKey k0 = "Other" →
        (∀ k ∈ (st.expenses.filter (expenseMatches u y m)).map (fun r => r.category),
          normKey k = "Other" → k = k0) →
        k0 ∈ (st.expenses.filter (expenseMatches u y m)).map (fun r => r.category) →
        dictGet (category_breakdown u y m st) "Other"
          = some (sumAmounts (rowsWithCat (st.expenses.filter (expenseMatches u y m)) k0))) := by
  constructor
  · rw [dictGet_category_breakdown]
    have hnil : ((sortKeys ((st.expenses.filter (expenseMatches u y m)).map
        (fun r => r.category))).filter (fun k => normKey k == "")) = [] := by
      rw [List.filter_eq_nil]
      intro k hk hbeq
      have hke : normKey k = "" := by simpa using hbeq
      cases k with
      | none => simp [normKey] at hke
      | some s =>
        by_cases hs : s = ""
        · simp [normKey, hs] at hke
        · rw [show normKey (some s) = s from by simp [normKey, hs]] at hke
          exact hs hke
    simp [hnil]
  · intro k0 hk0 huniq hmem
    rw [dictGet_category_breakdown]
    have hfmem : k0 ∈ ((sortKeys ((st.expenses.filter (expenseMatches u y m)).map
        (fun r => r.category))).filter (fun k => normKey k == "Other")) :=
      List.mem_filter.2 ⟨(mem_sortKeys _ _).2 hmem, by simp [hk0]⟩
    cases hgl : ((sortKeys ((st.expenses.filter (expenseMatches u y m)).map
        (fun r => r.category))).filter (fun k => normKey k == "Other")).getLast? with
    | none =>
      rw [List.getLast?_eq_none] at hgl
      rw [hgl] at hfmem
      simp at hfmem
    | some k1 =>
      have hk1f := List.mem_filter.1 (mem_of_getLast?_eq hgl)
      have hk1n : normKey k1 = "Other" := by simpa using hk1f.2
      have hk1m := (mem_sortKeys _ _).1 hk1f.1
      have hk10 : k1 = k0 := huniq k1 hk1m hk1n
      subst hk10
      simp

/-- Witness for claim C10: one NULL-category expense — the breakdown has
no empty key and reports the total under Other. -/
theorem c10_other_key_amended_witness :
    dictGet (category_breakdown "u" 2024 5 stC10w) "" = none
    ∧ dictGet (category_breakdown "u" 2024 5 stC10w) "Other"
        = some (sumAmounts (rowsWithCat (stC10w.expenses.filter (expenseMatches "u" 2024 5)) none)) :=
  ⟨(c10_other_key_amended "u" 2024 5 stC10w).1,
   (c10_other_key_amended "u" 2024 5 stC10w).2 none rfl (by decide) (by decide)⟩

/-- Counterexample to claim C10 as stated: with a NULL-category row of 100
and an empty-category row of 50 in the same month, the two groups collide
on Other and only the later one survives — the combined 150 the claim
would place there is not reported. -/
theorem c10_null_empty_collision_cex :
    category_breakdown "u" 2024 5 cexC10 = [("Other", 50)] ∧ ((50 : Rat) ≠ 150) := by
  constructor
  · show [("Other", (50 : Rat) + 0)] = [("Other", 50)]
    norm_num
  · norm_num
